import Mathlib

/-!
Verification of the WHO-ITB gdhcn-helper decoding pipeline (`src/gdhcn-helper/app.py`).

The Python source is shallowly embedded below: pure helper functions of the service
(`normalize_text`, `sanitize_base45`, `unwrap_cbor_tags`, `decode_cose_sign1`, `extract_kid`,
`parse_shlink_reference`, `bytes_to_json_safe`) become Lean functions over an explicit
Python-value type, and the relevant route handlers (`/decode/hcert`, `/extract/reference`)
become functions from their inputs to a structured outcome.  External library calls that are
not part of this repository (Python's `base64`, `unicodedata`, `cbor2.loads`, `json.loads`,
the `base45` package) are modelled from the specification where their behaviour is needed,
or taken as parameters where only their interface matters.
-/

namespace WhoItb

/-! ## Base64url codec (Python `base64` stdlib, modelled from the spec) -/

/-- The urlsafe base64 alphabet used by Python `base64.urlsafe_b64encode`. -/
def b64Alphabet : List Char :=
  "ABCDEFGHIJKLMNOPQRSTUVWXYZabcdefghijklmnopqrstuvwxyz0123456789-_".toList

/-- The character for a 6-bit value in the urlsafe base64 alphabet. -/
def b64Char (n : Nat) : Char := b64Alphabet.getD n 'A'

/-- The 6-bit value of a base64 character.  `urlsafe_b64decode` first translates `-` to `+`
and `_` to `/` and then decodes with the standard alphabet, so both spellings of the two
extra characters are accepted. -/
def b64CharVal (c : Char) : Option Nat :=
  if 'A' ≤ c ∧ c ≤ 'Z' then some (c.toNat - 65)
  else if 'a' ≤ c ∧ c ≤ 'z' then some (c.toNat - 97 + 26)
  else if '0' ≤ c ∧ c ≤ '9' then some (c.toNat - 48 + 52)
  else if c = '-' ∨ c = '+' then some 62
  else if c = '_' ∨ c = '/' then some 63
  else none

/-- Characters of the base64url, no-padding, encoding of a byte list, as produced by
Python's `base64.urlsafe_b64encode(b).decode('ascii').rstrip('=')` idiom used throughout
the source. -/
def b64urlChars : List Nat → List Char
  | [] => []
  | [a] => [b64Char (a / 4), b64Char (a % 4 * 16)]
  | [a, b] => [b64Char (a / 4), b64Char (a % 4 * 16 + b / 16), b64Char (b % 16 * 4)]
  | a :: b :: c :: rest =>
      b64Char (a / 4) :: b64Char (a % 4 * 16 + b / 16) ::
      b64Char (b % 16 * 4 + c / 64) :: b64Char (c % 64) :: b64urlChars rest

/-- Base64url encoding without padding, as a string. -/
def b64urlNoPad (bs : List Nat) : String := (b64urlChars bs).asString

/-- Modelled from the spec: the data-decoding core of Python's lenient `base64.b64decode`
(the `base64` stdlib module is not part of this repository's sources).  Full quads give
3 bytes; a final group of 3 characters gives 2 bytes and a final group of 2 gives 1 byte,
discarding the unused low bits; a single leftover character is an error. -/
def b64CoreC : List Char → Option (List Nat)
  | [] => some []
  | c0 :: c1 :: c2 :: c3 :: rest => do
      let v0 ← b64CharVal c0
      let v1 ← b64CharVal c1
      let v2 ← b64CharVal c2
      let v3 ← b64CharVal c3
      let n := v0 * 262144 + v1 * 4096 + v2 * 64 + v3
      let tail ← b64CoreC rest
      some (n / 65536 :: n / 256 % 256 :: n % 256 :: tail)
  | [c0, c1, c2] => do
      let v0 ← b64CharVal c0
      let v1 ← b64CharVal c1
      let v2 ← b64CharVal c2
      some [v0 * 4 + v1 / 16, v1 % 16 * 16 + v2 / 4]
  | [c0, c1] => do
      let v0 ← b64CharVal c0
      let v1 ← b64CharVal c1
      some [v0 * 4 + v1 / 16]
  | [_] => none

/-- The padding check and data decode, once the kept characters are split into the data
run and the trailing padding: all padding characters must be `=`, data plus padding must
reach a multiple of 4 (excess `=` padding tolerated, as CPython's lenient decoder does),
and a data run of 4k+1 characters is an error. -/
def b64DecodeSplit (data pads : List Char) : Option (List Nat) :=
  if pads.all (fun c => c == '=') ∧ (data.length + pads.length) % 4 = 0 ∧
      data.length % 4 ≠ 1 then
    b64CoreC data
  else
    none

/-- Split the kept characters at the first `=` into data and padding and decode. -/
def b64DecodeKept (kept : List Char) : Option (List Nat) :=
  b64DecodeSplit (kept.takeWhile (fun c => c != '='))
    (kept.drop (kept.takeWhile (fun c => c != '=')).length)

/-- Modelled from the spec: Python `base64.urlsafe_b64decode` (stdlib, not in the
sources).  Characters outside the alphabet, other than `=`, are discarded before the
padding check (CPython decodes with `validate=False`), then the data run before the
padding is decoded. -/
def urlsafe_b64decode (s : String) : Option (List Nat) :=
  b64DecodeKept (s.toList.filter (fun c => (b64CharVal c).isSome || c == '='))

/-- Python's padding idiom `s + '=' * (4 - len(s) % 4)`, written verbatim at every decode
site in the source (note: a length that is already a multiple of 4 receives four `=`). -/
def padB64 (s : String) : String :=
  s ++ (List.replicate (4 - s.length % 4) '=').asString

/-! ## UTF-8 decoding (Python `bytes.decode('utf-8')`, modelled from the spec) -/

/-- A UTF-8 continuation byte. -/
def isCont (b : Nat) : Bool := 0x80 ≤ b && b ≤ 0xBF

/-- Modelled from the spec: strict UTF-8 decoding as performed by Python's
`bytes.decode('utf-8')` (CPython's codec, not in the sources).  Rejects truncated
sequences, stray continuation bytes, overlong encodings and surrogates. -/
def utf8Decode : List Nat → Option (List Char)
  | [] => some []
  | b1 :: t1 =>
    if b1 < 0x80 then
      (utf8Decode t1).map (Char.ofNat b1 :: ·)
    else
      match t1 with
      | [] => none
      | b2 :: t2 =>
        if b1 < 0xC2 then none
        else if b1 < 0xE0 then
          if isCont b2 then
            (utf8Decode t2).map (Char.ofNat ((b1 - 0xC0) * 64 + (b2 - 0x80)) :: ·)
          else none
        else
          match t2 with
          | [] => none
          | b3 :: t3 =>
            if b1 < 0xF0 then
              if isCont b2 && isCont b3 && (b1 ≠ 0xE0 || 0xA0 ≤ b2) &&
                  (b1 ≠ 0xED || b2 < 0xA0) then
                (utf8Decode t3).map
                  (Char.ofNat ((b1 - 0xE0) * 4096 + (b2 - 0x80) * 64 + (b3 - 0x80)) :: ·)
              else none
            else
              match t3 with
              | [] => none
              | b4 :: t4 =>
                if b1 < 0xF5 then
                  if isCont b2 && isCont b3 && isCont b4 && (b1 ≠ 0xF0 || 0x90 ≤ b2) &&
                      (b1 ≠ 0xF4 || b2 < 0x90) then
                    (utf8Decode t4).map
                      (Char.ofNat ((b1 - 0xF0) * 262144 + (b2 - 0x80) * 4096 +
                        (b3 - 0x80) * 64 + (b4 - 0x80)) :: ·)
                  else none
                else none

/-! ## Text Normalizer (`normalize_text`, app.py lines 613-647) -/

/-- One `{'char': ..., 'name': ...}` record for a removed hidden character. -/
structure RemovedChar where
  char : String
  name : String
deriving DecidableEq, Repr

/-- The fixed scan list of hidden characters of `normalize_text`, each with the
`U+XXXX` rendering of `f'U+\x7bord(char):04X\x7d'` and its `unicodedata.name`. -/
def hiddenChars : List (Char × String × String) :=
  [ (Char.ofNat 0x00A0, "U+00A0", "NO-BREAK SPACE"),
    (Char.ofNat 0x200B, "U+200B", "ZERO WIDTH SPACE"),
    (Char.ofNat 0x200C, "U+200C", "ZERO WIDTH NON-JOINER"),
    (Char.ofNat 0x200D, "U+200D", "ZERO WIDTH JOINER"),
    (Char.ofNat 0xFEFF, "U+FEFF", "ZERO WIDTH NO-BREAK SPACE"),
    (Char.ofNat 0x2060, "U+2060", "WORD JOINER") ]

/-- The `for char in hidden_chars:` loop of `normalize_text`: for each scan-list entry in
turn, if the character occurs in the text, record it once and remove every occurrence
(`text.replace(char, '')`). -/
def removeHidden : List (Char × String × String) → List Char → List Char × List RemovedChar
  | [], t => (t, [])
  | (c, cp, nm) :: rest, t =>
    if c ∈ t then
      let res := removeHidden rest (t.filter (fun x => x ≠ c))
      (res.1, ⟨cp, nm⟩ :: res.2)
    else
      removeHidden rest t

/-- `re.sub(r'[\r\n\t]+', '', text)`: every carriage return, line feed and tab is removed. -/
def stripCrLfTab (t : List Char) : List Char :=
  t.filter (fun c => c ≠ '\r' ∧ c ≠ '\n' ∧ c ≠ '\t')

/-- `normalize_text` (app.py lines 613-647).  The first step,
`unicodedata.normalize('NFKC', text)`, calls the Python `unicodedata` stdlib, which is not
part of this repository's sources; it is taken as the parameter `nfkc`. -/
def normalize_text (nfkc : List Char → List Char) (text : List Char) :
    List Char × List RemovedChar :=
  let t := nfkc text
  let res := removeHidden hiddenChars t
  (stripCrLfTab res.1, res.2)

/-! ## Base45 Codec (`sanitize_base45`, app.py lines 650-668; `base45.b45decode`) -/

/-- `BASE45_ALPHABET = "0123456789ABCDEFGHIJKLMNOPQRSTUVWXYZ $%*+-./:"` (app.py line 578). -/
def BASE45_ALPHABET : List Char := "0123456789ABCDEFGHIJKLMNOPQRSTUVWXYZ $%*+-./:".toList

/-- One `{'index': ..., 'char': ...}` record of `sanitize_base45`. -/
structure InvalidB45Char where
  index : Nat
  char : Char
deriving DecidableEq, Repr

/-- `sanitize_base45` (app.py lines 650-668): keep the characters of the alphabet, record
every out-of-alphabet character with its index. -/
def sanitize_base45 (text : List Char) : List Char × List InvalidB45Char :=
  ((text.enum.filter (fun p => p.2 ∈ BASE45_ALPHABET)).map (·.2),
   (text.enum.filter (fun p => p.2 ∉ BASE45_ALPHABET)).map (fun p => ⟨p.1, p.2⟩))

/-- 6-bit-style symbol value of a Base45 character: its index in the alphabet. -/
def b45CharVal (c : Char) : Option Nat := BASE45_ALPHABET.indexOf? c

/-- Grouped Base45 decoding: 3 symbols give 2 bytes (big-endian `divmod(x, 256)`), a final
pair gives 1 byte; values out of byte range are rejected. -/
def b45Groups : List Nat → Option (List Nat)
  | [] => some []
  | [_] => none
  | [a, b] => let x := a + b * 45; if x ≤ 255 then some [x] else none
  | a :: b :: c :: rest =>
      let x := a + b * 45 + c * 2025
      if x ≤ 65535 then (b45Groups rest).map (fun t => x / 256 :: x % 256 :: t)
      else none

/-- Symbol-by-symbol translation through the alphabet, failing on the first character
outside it (the `KeyError` of the library's `BASE45_DICT[c]` lookup). -/
def mapOpt (f : Char → Option Nat) : List Char → Option (List Nat)
  | [] => some []
  | x :: xs => do
      let y ← f x
      let ys ← mapOpt f xs
      some (y :: ys)

/-- Modelled from the spec: `base45.b45decode` (the `base45` pip package, not in the
sources).  Fails when the string contains a character outside the 45-symbol alphabet or
its length is invalid for the triplet/pair grouping (a lone trailing symbol); groups of 3
symbols give 2 bytes, a final group of 2 gives 1 byte, out-of-range group values fail. -/
def b45decode (s : List Char) : Option (List Nat) :=
  match mapOpt b45CharVal s with
  | none => none
  | some vals => if vals.length % 3 = 1 then none else b45Groups vals

/-! ## `/decode/hcert` pipeline (app.py lines 889-938, through the Base45 stage) -/

/-- Stable error codes returned by `/decode/hcert` with HTTP status 400, up to the Base45
stage. -/
inductive HcertError where
  | html_received_instead_of_hc1
  | invalid_format
  | base45_decode_failed
deriving DecidableEq, Repr

/-- Outcome of the `/decode/hcert` handler through its Base45 stage: either a 400 error
response with a stable error code, or the Base45-decoded bytes handed to the zlib stage
(the zlib, CBOR and response-building stages call external libraries on these bytes). -/
inductive HcertStage where
  | failure (status : Nat) (code : HcertError)
  | toZlib (bytes : List Nat)
deriving DecidableEq, Repr

/-- The `/decode/hcert` handler (app.py lines 889-938), modelled through the Base45
decode: normalize, reject HTML, require the `HC1:` prefix, strip it, sanitize the Base45
payload, and Base45-decode the sanitized string. -/
def decode_hcert (nfkc : List Char → List Char) (qr_data : List Char) : HcertStage :=
  let norm := normalize_text nfkc qr_data
  let t := norm.1
  if "<!DOCTYPE html".toList.isPrefixOf t || "<html".toList.isPrefixOf t then
    .failure 400 .html_received_instead_of_hc1
  else if ¬ ("HC1:".toList.isPrefixOf t) then
    .failure 400 .invalid_format
  else
    let hc1_data := t.drop 4
    let sanitized := (sanitize_base45 hc1_data).1
    match b45decode sanitized with
    | none => .failure 400 .base45_decode_failed
    | some bs => .toZlib bs

/-! ## Python values

The CBOR-derived and JSON-derived values the service manipulates: dictionaries keyed by
integers or strings, lists, text, byte strings, numbers, `None`, booleans, and
`cbor2.CBORTag` wrappers. -/

/-- A Python dict key as used by the service: an integer or a string. -/
inductive PyKey where
  | int (n : Int)
  | str (s : String)
deriving DecidableEq, Repr

/-- A Python value in the CBOR/JSON fragment the service works over. -/
inductive PyVal where
  | none
  | bool (b : Bool)
  | int (n : Int)
  | str (s : String)
  | bytes (bs : List Nat)
  | list (xs : List PyVal)
  | dict (kvs : List (PyKey × PyVal))
  | tag (t : Nat) (v : PyVal)

/-- Python truthiness on the modelled values: `None`, `False`, `0`, and empty strings,
byte strings, lists and dicts are falsy; a `cbor2.CBORTag` object is truthy. -/
def pyTruthy : PyVal → Bool
  | .none => false
  | .bool b => b
  | .int n => n != 0
  | .str s => s != ""
  | .bytes bs => !bs.isEmpty
  | .list xs => !xs.isEmpty
  | .dict kvs => !kvs.isEmpty
  | .tag _ _ => true

/-- Python `a or b`: the left operand when truthy, the right one otherwise. -/
def pyOr (a b : PyVal) : PyVal := if pyTruthy a then a else b

/-- First binding of a key in a dict's entry list. -/
def dLookup (kvs : List (PyKey × PyVal)) (k : PyKey) : Option PyVal :=
  (kvs.find? (fun p => p.1 == k)).map (fun p => p.2)

/-- Python `d.get(k)` on a dict value: the bound value, or `None` when the key is absent
(the source only calls `.get` on values guarded to be dicts). -/
def pvGet (v : PyVal) (k : PyKey) : PyVal :=
  match v with
  | .dict kvs =>
    match dLookup kvs k with
    | some x => x
    | Option.none => .none
  | _ => .none

/-- Python `d.get(k)` for a string key on a JSON-object entry list. -/
def jGet (kvs : List (PyKey × PyVal)) (k : String) : PyVal :=
  match dLookup kvs (.str k) with
  | some x => x
  | Option.none => .none

/-- Python `d.get(k, default)` for a string key. -/
def dGetD (kvs : List (PyKey × PyVal)) (k : String) (d : PyVal) : PyVal :=
  match dLookup kvs (.str k) with
  | some x => x
  | Option.none => d

/-- Python `str.startswith`. -/
def pyStartsWith (s pre : String) : Bool := pre.toList.isPrefixOf s.toList

/-! ## CBOR/COSE Decoder (`unwrap_cbor_tags`, `decode_cose_sign1`, app.py lines 671-714) -/

/-- `unwrap_cbor_tags` (app.py lines 671-679): strip `cbor2.CBORTag` wrappers, whatever
the tag number, until a non-tag value remains. -/
def unwrap_cbor_tags : PyVal → PyVal
  | .tag _ v => unwrap_cbor_tags v
  | v => v

/-- Exceptions raised inside `decode_cose_sign1` and caught by its caller:
the `ValueError` of the 4-element check (carrying the element count when the unwrapped
value is a list, as the source's error message does), a `TypeError` from handing a
non-byte-string to `cbor2.loads` or `base64.urlsafe_b64encode`, and a `cbor2` decode
error on nested bytes. -/
inductive CoseError where
  | invalidStructure (elementCount : Option Nat)
  | typeError
  | cborError
deriving DecidableEq, Repr

/-- The dict returned by `decode_cose_sign1`. -/
structure CoseDecoded where
  protected_ : PyVal
  unprotected : PyVal
  payload : PyVal
  signature : Option String

/-- The source idiom `h = \x7b\x7d` followed by `if bstr: h = cbor2.loads(bstr)`: Python
truthiness guards the nested CBOR decode; the external `cbor2.loads` is the parameter
`loads`, with `Option.none` standing for a raised decode error, and handing it a truthy
non-byte-string raises a `TypeError`. -/
def loadNestedIfTruthy (loads : List Nat → Option PyVal) (v : PyVal) :
    Except CoseError PyVal :=
  if pyTruthy v then
    match v with
    | .bytes bs =>
      match loads bs with
      | some x => .ok x
      | Option.none => .error .cborError
    | _ => .error .typeError
  else
    .ok (.dict [])

/-- `base64.urlsafe_b64encode(signature_bstr)...rstrip('=') if signature_bstr else None`
(app.py line 713). -/
def signatureField (v : PyVal) : Except CoseError (Option String) :=
  if pyTruthy v then
    match v with
    | .bytes bs => .ok (some (b64urlNoPad bs))
    | _ => .error .typeError
  else
    .ok Option.none

/-- The processing of the four destructured COSE fields (app.py lines 697-713): decode
the protected header bytes, then the payload bytes, then render the signature, and build
the result with `unprotected_map or \x7b\x7d`. -/
def coseDestructure (loads : List Nat → Option PyVal) (p u pl sg : PyVal) :
    Except CoseError CoseDecoded :=
  match loadNestedIfTruthy loads p with
  | .error e => .error e
  | .ok ph =>
    match loadNestedIfTruthy loads pl with
    | .error e => .error e
    | .ok pay =>
      match signatureField sg with
      | .error e => .error e
      | .ok sigv => .ok ⟨ph, pyOr u (.dict []), pay, sigv⟩

/-- `decode_cose_sign1` (app.py lines 682-714), starting from the CBOR value the external
`cbor2.loads` parsed at line 688; the nested `cbor2.loads` calls on the protected and
payload byte strings are the parameter `loads`. -/
def decode_cose_sign1 (loads : List Nat → Option PyVal) (cbor_data : PyVal) :
    Except CoseError CoseDecoded :=
  match unwrap_cbor_tags cbor_data with
  | .list [p, u, pl, sg] => coseDestructure loads p u pl sg
  | .list xs => .error (.invalidStructure (some xs.length))
  | _ => .error (.invalidStructure Option.none)

/-! ## Claims Extractor (`extract_kid`, app.py lines 717-728) -/

/-- The inner `find_kid` of `extract_kid`: `hdrs.get(4) or hdrs.get('4')` when `hdrs` is
a dict, `None` otherwise. -/
def find_kid (hdrs : PyVal) : PyVal :=
  match hdrs with
  | .dict _ => pyOr (pvGet hdrs (.int 4)) (pvGet hdrs (.str "4"))
  | _ => .none

/-- The rendering chain at the end of `extract_kid` (app.py lines 722-728): a byte
string becomes its unpadded base64url text, a dict bearing `_b64` yields that entry, a
string passes through, anything else gives `None`. -/
def classify_kid_value : PyVal → PyVal
  | .bytes bs => .str (b64urlNoPad bs)
  | .dict kvs =>
    match dLookup kvs (.str "_b64") with
    | some v => v
    | Option.none => .none
  | .str s => .str s
  | _ => .none

/-- `extract_kid` (app.py lines 717-728): look for header label 4 in the protected then
the unprotected headers via Python `or`-chaining, then render the found value. -/
def extract_kid (cose_headers : List (PyKey × PyVal)) : PyVal :=
  classify_kid_value
    (pyOr (find_kid (dGetD cose_headers "protected" (.dict [])))
          (find_kid (dGetD cose_headers "unprotected" (.dict []))))

/-! ## Reference Resolver (`parse_shlink_reference`, app.py lines 735-791) -/

/-- The JSON response dict built by `parse_shlink_reference`; `Option.none` in a field
models the key being absent from the Python dict (a present key holding Python `None` is
`some PyVal.none`). -/
structure ShlinkResult where
  hasReference : Bool
  raw : Option PyVal
  url : Option PyVal
  key : Option PyVal
  flags : Option PyVal
  exp : Option PyVal
  error : Option String

/-- An exception escaping `parse_shlink_reference`: a byte-string reference that is not
valid UTF-8. -/
inductive PyExn where
  | unicodeDecodeError
deriving DecidableEq, Repr

/-- The error message stored by `result['error'] = str(e)` (the source stores the Python
exception text; the model uses one fixed descriptive string). -/
def shlinkErrMsg : String := "failed to decode shlink payload"

/-- The classification chain of `parse_shlink_reference` (app.py lines 755-791), applied
to the working string `ref` once it is known to be a string; `raw0` is the original entry
value already stored under `'raw'`, `parseJson` is the external `json.loads`. -/
def shlinkClassify (parseJson : List Nat → Option PyVal) (raw0 : PyVal) (ref : String) :
    ShlinkResult :=
  if pyStartsWith ref "shlink://" then
    let payload_b64 := (ref.toList.drop 9).asString
    match urlsafe_b64decode (padB64 payload_b64) with
    | some bs =>
      match parseJson bs with
      | some (.dict kvs) =>
          ⟨true, some (.dict kvs), some (jGet kvs "url"), some (jGet kvs "key"),
           some (pyOr (jGet kvs "flag") (jGet kvs "flags")), some (jGet kvs "exp"),
           Option.none⟩
      | _ =>
          ⟨true, some raw0, Option.none, Option.none, Option.none, Option.none,
           some shlinkErrMsg⟩
    | Option.none =>
        ⟨true, some raw0, Option.none, Option.none, Option.none, Option.none,
         some shlinkErrMsg⟩
  else if ¬ pyStartsWith ref "http" then
    match urlsafe_b64decode (padB64 ref) with
    | some bs =>
      match utf8Decode bs with
      | some cs =>
        if pyStartsWith cs.asString "http" then
          ⟨true, some raw0, some (.str cs.asString), Option.none, Option.none,
           Option.none, Option.none⟩
        else
          ⟨true, some raw0, Option.none, Option.none, Option.none, Option.none,
           Option.none⟩
      | Option.none =>
          ⟨true, some raw0, some (.str ref), Option.none, Option.none, Option.none,
           Option.none⟩
    | Option.none =>
        ⟨true, some raw0, some (.str ref), Option.none, Option.none, Option.none,
         Option.none⟩
  else
    ⟨true, some raw0, some (.str ref), Option.none, Option.none, Option.none,
     Option.none⟩

/-- `parse_shlink_reference` (app.py lines 735-791), over the entry list of the dict it
receives.  The external `json.loads` is the parameter `parseJson` (`Option.none` for a
parse failure, and a successful parse to a non-dict makes the subsequent `.get` raise,
landing in the same `except` branch). -/
def parse_shlink_reference (parseJson : List Nat → Option PyVal)
    (hcert : List (PyKey × PyVal)) : Except PyExn ShlinkResult :=
  let ref0 := pyOr (pvGet (.dict hcert) (.int 5)) (pvGet (.dict hcert) (.str "5"))
  if ¬ pyTruthy ref0 then
    .ok ⟨false, Option.none, Option.none, Option.none, Option.none, Option.none,
         Option.none⟩
  else
    match ref0 with
    | .bytes bs =>
      match utf8Decode bs with
      | some cs => .ok (shlinkClassify parseJson ref0 cs.asString)
      | Option.none => .error .unicodeDecodeError
    | .str s => .ok (shlinkClassify parseJson ref0 s)
    | _ =>
      .ok ⟨false, Option.none, Option.none, Option.none, Option.none, Option.none,
           Option.none⟩

/-! ## JSON-Safe Projector (`bytes_to_json_safe`, app.py lines 794-802) and its inverse
(the `_b64` envelope reversal performed at app.py lines 1014-1017) -/

/-- `bytes_to_json_safe` (app.py lines 794-802): recursively replace every byte string by
the JSON-safe envelope whose `_b64` key holds the unpadded base64url encoding, descending
through dicts and lists. -/
def bytes_to_json_safe : PyVal → PyVal
  | .bytes bs => .dict [(.str "_b64", .str (b64urlNoPad bs))]
  | .dict kvs => .dict (kvs.attach.map (fun p => (p.1.1, bytes_to_json_safe p.1.2)))
  | .list xs => .list (xs.attach.map (fun p => bytes_to_json_safe p.1))
  | v => v
decreasing_by
  · obtain ⟨⟨k, v⟩, hm⟩ := p
    have h := List.sizeOf_lt_of_mem hm
    simp only [PyVal.dict.sizeOf_spec, Prod.mk.sizeOf_spec] at *
    omega
  · obtain ⟨v, hm⟩ := p
    have h := List.sizeOf_lt_of_mem hm
    simp only [PyVal.list.sizeOf_spec] at *
    omega

/-- The `_b64` envelope reversal as performed at app.py lines 1014-1017: detect a dict
bearing `_b64` and base64url-decode its string value with the source's padding idiom. -/
def unprojectB64 (v : PyVal) : Option (List Nat) :=
  match v with
  | .dict kvs =>
    match dLookup kvs (.str "_b64") with
    | some (.str s) => urlsafe_b64decode (padB64 s)
    | _ => Option.none
  | _ => Option.none

/-! ## `/extract/reference` (app.py lines 1039-1078) -/

/-- `normalize_ref` (app.py lines 1048-1055): a non-empty list of pointer objects yields
the first element's `u`, falling back to `url`; a non-empty list of other values yields
its first element; anything else passes through. -/
def normalize_ref (ref : PyVal) : PyVal :=
  match ref with
  | .list (first :: _) =>
    match first with
    | .dict kvs => pyOr (jGet kvs "u") (jGet kvs "url")
    | _ => first
  | _ => ref

/-- Python `isinstance(x, (str, bytes))`. -/
def isStrOrBytes : PyVal → Bool
  | .str _ => true
  | .bytes _ => true
  | _ => false

/-- The hcert branch of `/extract/reference` (app.py lines 1057-1062): the reference
value taken from `hcert[5]` when `hcert` is a dict and the normalized entry is a string
or byte string. -/
def hcertRefOf (hcert : PyVal) : Option PyVal :=
  match hcert with
  | .dict kvs =>
    let ref := normalize_ref (pyOr (pvGet (.dict kvs) (.int 5)) (pvGet (.dict kvs) (.str "5")))
    if isStrOrBytes ref then some ref else Option.none
  | _ => Option.none

/-- The payload fallback branch of `/extract/reference` (app.py lines 1064-1071):
`payload[-260][5]`, accepting integer and string keys. -/
def payloadRefOf (payload : PyVal) : Option PyVal :=
  match payload with
  | .dict kvs =>
    match pyOr (pvGet (.dict kvs) (.int (-260))) (pvGet (.dict kvs) (.str "-260")) with
    | .dict ckvs =>
      let ref := normalize_ref
        (pyOr (pvGet (.dict ckvs) (.int 5)) (pvGet (.dict ckvs) (.str "5")))
      if isStrOrBytes ref then some ref else Option.none
    | _ => Option.none
  | _ => Option.none

/-- Outcome of the `/extract/reference` handler: a 200 response with the resolved
reference, the 404 `no_reference_found` response, or a 500 from an escaped exception. -/
inductive ExtractRefOutcome where
  | resolved (r : ShlinkResult)
  | notFound
  | serverError

/-- `/extract/reference` (app.py lines 1039-1078): prefer `hcert[5]`, fall back to
`payload[-260][5]`, resolving the found value through
`parse_shlink_reference(\x7b5: ref\x7d)`. -/
def extract_reference (parseJson : List Nat → Option PyVal) (hcert payload : PyVal) :
    ExtractRefOutcome :=
  match hcertRefOf hcert with
  | some r =>
    match parse_shlink_reference parseJson [(.int 5, r)] with
    | .ok res => .resolved res
    | .error _ => .serverError
  | Option.none =>
    match payloadRefOf payload with
    | some r =>
      match parse_shlink_reference parseJson [(.int 5, r)] with
      | .ok res => .resolved res
      | .error _ => .serverError
    | Option.none => .notFound

/-! ## Observation and claim-comparison definitions used by the theorems below -/

/-- The canonical composition pair the NFKC fragment below knows: LATIN SMALL LETTER A
followed by COMBINING ACUTE ACCENT (U+0301) composes to LATIN SMALL LETTER A WITH ACUTE
(U+00E1). -/
def composePair (c1 c2 : Char) : Option Char :=
  if c1 = 'a' ∧ c2 = Char.ofNat 0x0301 then some (Char.ofNat 0x00E1) else Option.none

/-- Modelled from the spec: a fragment of `unicodedata.normalize('NFKC', ...)` (the
Python `unicodedata` stdlib is not in the sources).  It performs canonical composition
of an immediately adjacent pair per `composePair` and passes every other character
through.  On the strings the theorems below evaluate it on, this agrees with full NFKC:
`a CR U+0301` is already NFKC-normalized, because the intervening CR is a starter and
blocks composition of the base letter with the combining mark across it, while
`a U+0301` recomposes to `U+00E1`. -/
def nfkcModel : List Char → List Char
  | [] => []
  | [c1] => [c1]
  | c1 :: c2 :: rest2 =>
    match composePair c1 c2 with
    | some c => c :: nfkcModel rest2
    | Option.none => c1 :: nfkcModel (c2 :: rest2)

/-- The distinct hidden characters of a text in order of first encounter. -/
def firstEncounterChars (t : List Char) : List Char :=
  t.foldl (fun acc c =>
    if (hiddenChars.any (fun h => h.1 == c)) && !(acc.contains c) then acc ++ [c]
    else acc) []

/-- The removal record of a hidden character. -/
def hiddenRecordFor (c : Char) : RemovedChar :=
  match hiddenChars.find? (fun h => h.1 == c) with
  | some h => ⟨h.2.1, h.2.2⟩
  | Option.none => ⟨"", ""⟩

/-- The removal records in order of first encounter of each distinct hidden code point
within the text, as claim C4 words them (this definition follows the claim's words, for
comparison; the source behaviour is `normalize_text` above). -/
def firstEncounterRecords (t : List Char) : List RemovedChar :=
  (firstEncounterChars t).map hiddenRecordFor

/-- The invalid-structure test on a `decode_cose_sign1` outcome. -/
def isInvalidStructureErr : Except CoseError CoseDecoded → Bool
  | .error (.invalidStructure _) => true
  | _ => false

/-- Whether a value is a 4-element list. -/
def isList4 : PyVal → Bool
  | .list xs => xs.length == 4
  | _ => false

/-- Key-4 lookup as claim C6 words it: integer form checked before string form, and the
unprotected map consulted only when the key is absent — under both forms — from the
protected map (this definition follows the claim's words, for comparison; the source
behaviour is `extract_kid` above). -/
def kidPresenceLookup (h : PyVal) : Option PyVal :=
  match h with
  | .dict kvs =>
    match dLookup kvs (.int 4) with
    | some v => some v
    | Option.none => dLookup kvs (.str "4")
  | _ => Option.none

/-- The KID extraction as claim C6 words it: presence-based precedence, then the
rendering chain. -/
def kidClaim (cose_headers : List (PyKey × PyVal)) : PyVal :=
  match kidPresenceLookup (dGetD cose_headers "protected" (.dict [])) with
  | some v => classify_kid_value v
  | Option.none =>
    match kidPresenceLookup (dGetD cose_headers "unprotected" (.dict [])) with
    | some v => classify_kid_value v
    | Option.none => .none

/-- C6 amended lookup: the dispatched value is the first Python-truthy candidate among
protected[4], protected['4'], unprotected[4], unprotected['4'], in that order; when
every candidate is falsy the final candidate is dispatched (which may be a falsy present
value rather than `None`). -/
def kidLookupAmended (cose_headers : List (PyKey × PyVal)) : PyVal :=
  let p := dGetD cose_headers "protected" (.dict [])
  let u := dGetD cose_headers "unprotected" (.dict [])
  let a := pvGet p (.int 4)
  let b := pvGet p (.str "4")
  let c := pvGet u (.int 4)
  let d := pvGet u (.str "4")
  if pyTruthy a then a else if pyTruthy b then b else if pyTruthy c then c else d

/-- The base64url probe of the non-`http` branch: the decoded UTF-8 text, when both the
padded base64url decode and the UTF-8 conversion succeed. -/
def b64UrlProbe (ref : String) : Option String :=
  match urlsafe_b64decode (padB64 ref) with
  | some bs =>
    match utf8Decode bs with
    | some cs => some cs.asString
    | Option.none => Option.none
  | Option.none => Option.none

/-! # Helper lemmas -/

/-- A symbol that fails to translate anywhere in the list makes the whole translation
fail. -/
theorem mapOpt_eq_none_of_mem {f : Char → Option Nat} {l : List Char} {c : Char}
    (hc : c ∈ l) (hf : f c = Option.none) : mapOpt f l = Option.none := by
  induction l with
  | nil => cases hc
  | cons x xs ih =>
    rcases List.mem_cons.mp hc with h | h
    · subst h
      simp [mapOpt, hf]
    · cases hx : f x <;> simp [mapOpt, hx, ih h]

/-- `b45decode` fails on any string containing a character outside the alphabet. -/
theorem b45decode_eq_none_of_invalid {s : List Char} {c : Char} (hc : c ∈ s)
    (hinv : c ∉ BASE45_ALPHABET) : b45decode s = Option.none := by
  have hval : b45CharVal c = Option.none := by
    unfold b45CharVal
    exact List.indexOf?_eq_none_iff.mpr (fun x hx hb => hinv (by
      rcases eq_of_beq hb with rfl
      exact hx))
  unfold b45decode
  rw [mapOpt_eq_none_of_mem hc hval]

/-! # C1 -/

/-- C1 counterexample: the input `HC1:BB8!` contains `!`, a character outside the Base45
alphabet, yet `/decode/hcert` does not surface `base45_decode_failed`: `sanitize_base45`
silently drops the `!` before `base45.b45decode` runs, and the sanitized payload `BB8`
decodes to the bytes `[65, 66]` that are handed to the zlib stage.  (NFKC is the identity
on this pure-ASCII input.) -/
theorem decode_hcert_invalid_char_no_base45_failure :
    ('!' ∉ BASE45_ALPHABET) ∧ ('!' ∈ "BB8!".toList) ∧
    decode_hcert id "HC1:BB8!".toList = .toZlib [65, 66] ∧
    decode_hcert id "HC1:BB8!".toList ≠ .failure 400 .base45_decode_failed :=
  ⟨by decide, by decide, by decide, by decide⟩

/-- C1 amended: the Base45 codec itself (`base45.b45decode`) fails on every string
containing a character outside the 45-symbol alphabet, but the `/decode/hcert` path does
not decode the untouched `HC1` payload: it first filters it through `sanitize_base45`,
silently dropping out-of-alphabet characters, and `base45_decode_failed` surfaces only
when the *sanitized* string fails to decode. -/
theorem base45_closure_and_sanitized_decode :
    (∀ (s : List Char) (c : Char), c ∈ s → c ∉ BASE45_ALPHABET →
      b45decode s = Option.none) ∧
    (∀ (nfkc : List Char → List Char) (qr : List Char),
      ("<!DOCTYPE html".toList.isPrefixOf (normalize_text nfkc qr).1 = false) →
      ("<html".toList.isPrefixOf (normalize_text nfkc qr).1 = false) →
      ("HC1:".toList.isPrefixOf (normalize_text nfkc qr).1 = true) →
      decode_hcert nfkc qr =
        match b45decode (sanitize_base45 ((normalize_text nfkc qr).1.drop 4)).1 with
        | Option.none => .failure 400 .base45_decode_failed
        | some bs => .toZlib bs) := by
  constructor
  · exact fun s c hc hinv => b45decode_eq_none_of_invalid hc hinv
  · intro nfkc qr h1 h2 h3
    simp at h1 h2 h3
    unfold decode_hcert
    simp [h1, h2, h3]

/-- Witness for the amended C1 at concrete inputs: `b45decode` hard-fails on `A!`, while
the production path on `HC1:BB8!` reaches the zlib stage. -/
theorem base45_closure_and_sanitized_decode_witness :
    b45decode "A!".toList = Option.none ∧
    decode_hcert id "HC1:BB8!".toList = .toZlib [65, 66] := by
  constructor
  · exact base45_closure_and_sanitized_decode.1 "A!".toList '!' (by decide) (by decide)
  · have h := base45_closure_and_sanitized_decode.2 id "HC1:BB8!".toList
      (by decide) (by decide) (by decide)
    rw [h]
    decide

/-! # Normalizer lemmas -/

/-- Removal passes only ever drop characters. -/
theorem removeHidden_subset : ∀ (table : List (Char × String × String)) (t : List Char)
    (x : Char), x ∈ (removeHidden table t).1 → x ∈ t := by
  intro table
  induction table with
  | nil => exact fun t x h => h
  | cons hd rest ih =>
    intro t x h
    obtain ⟨c, cp, nm⟩ := hd
    by_cases hc : c ∈ t
    · simp only [removeHidden, if_pos hc] at h
      exact (List.mem_filter.mp (ih _ x h)).1
    · simp only [removeHidden, if_neg hc] at h
      exact ih t x h

/-- Every character of the scan table is absent from the pass's output. -/
theorem removeHidden_not_mem : ∀ (table : List (Char × String × String)) (t : List Char)
    (c : Char) (cp nm : String), (c, cp, nm) ∈ table → c ∉ (removeHidden table t).1 := by
  intro table
  induction table with
  | nil => intro t c cp nm h; cases h
  | cons hd rest ih =>
    intro t c cp nm h
    obtain ⟨c', cp', nm'⟩ := hd
    rcases List.mem_cons.mp h with heq | hmem
    · obtain ⟨rfl, rfl, rfl⟩ := Prod.mk.injEq .. ▸ (by
        injection heq with h1 h2
        injection h2 with h2 h3
        exact ⟨h1, h2, h3⟩ : c = c' ∧ cp = cp' ∧ nm = nm')
      by_cases hc : c ∈ t
      · simp only [removeHidden, if_pos hc]
        intro hx
        have hmem2 := removeHidden_subset rest _ c hx
        simp [List.mem_filter] at hmem2
      · simp only [removeHidden, if_neg hc]
        intro hx
        exact hc (removeHidden_subset rest t c hx)
    · by_cases hc : c' ∈ t
      · simp only [removeHidden, if_pos hc]
        exact ih _ c cp nm hmem
      · simp only [removeHidden, if_neg hc]
        exact ih t c cp nm hmem

/-- A pass over text containing none of the scanned characters is a no-op with an empty
record list. -/
theorem removeHidden_of_not_mem : ∀ (table : List (Char × String × String))
    (t : List Char), (∀ p ∈ table, p.1 ∉ t) → removeHidden table t = (t, []) := by
  intro table
  induction table with
  | nil => intro t _; rfl
  | cons hd rest ih =>
    intro t h
    obtain ⟨c, cp, nm⟩ := hd
    have hc : c ∉ t := h (c, cp, nm) (List.mem_cons_self _ _)
    simp only [removeHidden, if_neg hc]
    exact ih t (fun p hp => h p (List.mem_cons_of_mem _ hp))

/-! # C3 -/

/-- C3 counterexample: on the input `a CR U+0301` the first pass leaves NFKC with
nothing to do (the CR, a starter, blocks composition) and then strips the CR, yielding
`a U+0301` — which is no longer NFKC-normalized.  The repeated pass's NFKC step
recomposes it to `U+00E1`, so applying the normalizer to the clean text of a first pass
does not return that text unchanged: the pipeline is not idempotent.  (`nfkcModel`
agrees with full NFKC on every string this computation touches.) -/
theorem normalize_not_idempotent_counterexample :
    nfkcModel ['a', '\r', Char.ofNat 0x0301] = ['a', '\r', Char.ofNat 0x0301] ∧
    (normalize_text nfkcModel ['a', '\r', Char.ofNat 0x0301]).1
      = ['a', Char.ofNat 0x0301] ∧
    normalize_text nfkcModel ['a', Char.ofNat 0x0301] = ([Char.ofNat 0x00E1], []) ∧
    normalize_text nfkcModel
        (normalize_text nfkcModel ['a', '\r', Char.ofNat 0x0301]).1
      ≠ ((normalize_text nfkcModel ['a', '\r', Char.ofNat 0x0301]).1, []) :=
  ⟨by decide, by decide, by decide, by decide⟩

/-- C3 amended: the normalizer is a total function (it cannot raise), and its own
removal and stripping stages are idempotent — so re-normalizing the clean text returns
it unchanged with an empty removed-character list exactly under the proviso that the
external NFKC step fixes that clean text; the counterexample above shows the proviso is
necessary, since stripping a CR or a hidden character can unblock canonical composition
and make the second NFKC pass change the text. -/
theorem normalize_text_idempotent (nfkc : List Char → List Char) (x : List Char)
    (hfix : nfkc (normalize_text nfkc x).1 = (normalize_text nfkc x).1) :
    normalize_text nfkc (normalize_text nfkc x).1 = ((normalize_text nfkc x).1, []) := by
  have hy : (normalize_text nfkc x).1
      = stripCrLfTab (removeHidden hiddenChars (nfkc x)).1 := rfl
  have hhidden : ∀ p ∈ hiddenChars, p.1 ∉ (normalize_text nfkc x).1 := by
    intro p hp hmem
    rw [hy] at hmem
    have h2 : p.1 ∈ (removeHidden hiddenChars (nfkc x)).1 :=
      (List.mem_filter.mp hmem).1
    obtain ⟨c, cp, nm⟩ := p
    exact removeHidden_not_mem hiddenChars (nfkc x) c cp nm hp h2
  have hstrip : stripCrLfTab (normalize_text nfkc x).1 = (normalize_text nfkc x).1 := by
    apply List.filter_eq_self.mpr
    intro a ha
    rw [hy] at ha
    exact (List.mem_filter.mp ha).2
  show (stripCrLfTab (removeHidden hiddenChars
    (nfkc (normalize_text nfkc x).1)).1, (removeHidden hiddenChars
      (nfkc (normalize_text nfkc x).1)).2) = _
  rw [hfix, removeHidden_of_not_mem hiddenChars _ hhidden, hstrip]

/-- Witness for the amended C3 at a concrete input (NFKC instantiated as the identity
map, which fixes the output of the first pass): normalizing the clean text of
`a CR U+200B b` returns it unchanged with an empty removal list. -/
theorem normalize_text_idempotent_witness :
    normalize_text id
        (normalize_text id ['a', '\r', Char.ofNat 0x200B, 'b']).1 =
      ((normalize_text id ['a', '\r', Char.ofNat 0x200B, 'b']).1, []) :=
  normalize_text_idempotent id ['a', '\r', Char.ofNat 0x200B, 'b'] rfl

/-! # C4 -/

/-- C4 counterexample: on the input `U+200C U+200B` the records come out in the fixed
scan-list order (`U+200B` before `U+200C`), not in first-encounter order (`U+200C`
before `U+200B`).  (Both characters are NFKC-invariant, so NFKC is the identity here.) -/
theorem normalize_removed_order_counterexample :
    (normalize_text id [Char.ofNat 0x200C, Char.ofNat 0x200B]).2 =
      [⟨"U+200B", "ZERO WIDTH SPACE"⟩, ⟨"U+200C", "ZERO WIDTH NON-JOINER"⟩] ∧
    firstEncounterRecords [Char.ofNat 0x200C, Char.ofNat 0x200B] =
      [⟨"U+200C", "ZERO WIDTH NON-JOINER"⟩, ⟨"U+200B", "ZERO WIDTH SPACE"⟩] ∧
    (normalize_text id [Char.ofNat 0x200C, Char.ofNat 0x200B]).2 ≠
      firstEncounterRecords [Char.ofNat 0x200C, Char.ofNat 0x200B] :=
  ⟨by decide, by decide, by decide⟩

/-- A pass's record list: one record per scan-table entry whose character occurs in the
text, in scan-table order, provided the table's characters are pairwise distinct. -/
theorem removeHidden_records : ∀ (table : List (Char × String × String)) (t : List Char),
    table.Pairwise (fun a b => a.1 ≠ b.1) →
    (removeHidden table t).2 =
      (table.filter (fun h => decide (h.1 ∈ t))).map
        (fun h => (⟨h.2.1, h.2.2⟩ : RemovedChar)) := by
  intro table
  induction table with
  | nil => intro t _; rfl
  | cons hd rest ih =>
    intro t hp
    obtain ⟨c, cp, nm⟩ := hd
    have hne : ∀ b ∈ rest, c ≠ b.1 := by
      intro b hb
      exact (List.pairwise_cons.mp hp).1 b hb
    have hrest := (List.pairwise_cons.mp hp).2
    by_cases hc : c ∈ t
    · simp only [removeHidden, if_pos hc]
      rw [ih _ hrest]
      have hfentry : ∀ h ∈ rest,
          decide (h.1 ∈ t.filter (fun y => y ≠ c)) = decide (h.1 ∈ t) := by
        intro h hh
        have hne2 : h.1 ≠ c := fun he => (hne h hh) he.symm
        apply decide_eq_decide.mpr
        constructor
        · exact fun hm => (List.mem_filter.mp hm).1
        · exact fun hm => List.mem_filter.mpr ⟨hm, by simp [hne2]⟩
      rw [List.filter_congr hfentry]
      simp [hc]
    · simp only [removeHidden, if_neg hc]
      rw [ih _ hrest]
      simp [hc]

/-- C4 amended: the removal list of `normalize_text` holds exactly one record per
distinct hidden code point present in the NFKC-normalized text — not one per
occurrence — but the records appear in the fixed scan order U+00A0, U+200B, U+200C,
U+200D, U+FEFF, U+2060, not in order of first encounter within the input. -/
theorem normalize_removed_records_scan_order (nfkc : List Char → List Char)
    (x : List Char) :
    (normalize_text nfkc x).2 =
      (hiddenChars.filter (fun h => decide (h.1 ∈ nfkc x))).map
        (fun h => (⟨h.2.1, h.2.2⟩ : RemovedChar)) :=
  removeHidden_records hiddenChars (nfkc x) (by decide)

/-! # C5 -/

/-- A nested header decode either succeeds or raises a CBOR or type error — never the
structural `ValueError`. -/
theorem loadNestedIfTruthy_cases (loads : List Nat → Option PyVal) (v : PyVal) :
    (∃ x, loadNestedIfTruthy loads v = .ok x) ∨
    loadNestedIfTruthy loads v = .error .cborError ∨
    loadNestedIfTruthy loads v = .error .typeError := by
  unfold loadNestedIfTruthy
  split
  · split
    · split
      · exact Or.inl ⟨_, rfl⟩
      · exact Or.inr (Or.inl rfl)
    · exact Or.inr (Or.inr rfl)
  · exact Or.inl ⟨_, rfl⟩

/-- The signature rendering either succeeds or raises a type error. -/
theorem signatureField_cases (v : PyVal) :
    (∃ x, signatureField v = .ok x) ∨ signatureField v = .error .typeError := by
  unfold signatureField
  split
  · split
    · exact Or.inl ⟨_, rfl⟩
    · exact Or.inr rfl
  · exact Or.inl ⟨_, rfl⟩

/-- Field processing after a successful destructuring never raises the structural
`ValueError`. -/
theorem coseDestructure_not_invalid (loads : List Nat → Option PyVal)
    (p u pl sg : PyVal) :
    isInvalidStructureErr (coseDestructure loads p u pl sg) = false := by
  unfold coseDestructure
  rcases loadNestedIfTruthy_cases loads p with ⟨x1, h1⟩ | h1 | h1 <;> rw [h1]
  · rcases loadNestedIfTruthy_cases loads pl with ⟨x2, h2⟩ | h2 | h2 <;> rw [h2]
    · rcases signatureField_cases sg with ⟨x3, h3⟩ | h3 <;> rw [h3] <;> rfl
    · rfl
    · rfl
  · rfl
  · rfl

/-- C5: after unwrapping every layer of semantic tags — any nesting depth, any tag
number — `decode_cose_sign1` raises the invalid-structure `ValueError` exactly when the
remaining CBOR value is not a 4-element array (in particular for arrays of length 0, 1,
3 and 5), and on a 4-element array it proceeds to destructure protected, unprotected,
payload and signature. -/
theorem decode_cose_sign1_shape (loads : List Nat → Option PyVal) (v : PyVal) :
    (isInvalidStructureErr (decode_cose_sign1 loads v)
      = !(isList4 (unwrap_cbor_tags v))) ∧
    (∀ p u pl sg, unwrap_cbor_tags v = .list [p, u, pl, sg] →
      decode_cose_sign1 loads v = coseDestructure loads p u pl sg) := by
  constructor
  · unfold decode_cose_sign1
    generalize unwrap_cbor_tags v = w
    rcases w with _ | _ | _ | _ | _ | xs | _ | _ <;>
      try simp [isList4, isInvalidStructureErr]
    rcases xs with _ | ⟨p, _ | ⟨u, _ | ⟨pl, _ | ⟨sg, _ | ⟨e, rest⟩⟩⟩⟩⟩
    · simp [isList4, isInvalidStructureErr]
    · simp [isList4, isInvalidStructureErr]
    · simp [isList4, isInvalidStructureErr]
    · simp [isList4, isInvalidStructureErr]
    · show isInvalidStructureErr (coseDestructure loads p u pl sg)
        = !(isList4 (.list [p, u, pl, sg]))
      rw [coseDestructure_not_invalid]
      rfl
    · simp [isList4, isInvalidStructureErr]
  · intro p u pl sg h
    unfold decode_cose_sign1
    rw [h]

/-- Witness for C5: a doubly tag-wrapped 4-element COSE array (tags 18 and 99) with
empty fields destructures successfully, while the same wrapping of a 3-element array is
rejected as structurally invalid. -/
theorem decode_cose_sign1_shape_witness :
    decode_cose_sign1 (fun _ => Option.none)
        (.tag 18 (.tag 99 (.list [.bytes [], .dict [], .bytes [], .bytes []])))
      = .ok ⟨.dict [], .dict [], .dict [], Option.none⟩ ∧
    isInvalidStructureErr (decode_cose_sign1 (fun _ => Option.none)
        (.tag 18 (.tag 99 (.list [.bytes [], .dict [], .bytes []]))))
      = !(isList4 (unwrap_cbor_tags
          (.tag 18 (.tag 99 (.list [.bytes [], .dict [], .bytes []]))))) := by
  constructor
  · have h := (decode_cose_sign1_shape (fun _ => Option.none)
      (.tag 18 (.tag 99 (.list [.bytes [], .dict [], .bytes [], .bytes []])))).2
      (.bytes []) (.dict []) (.bytes []) (.bytes []) rfl
    rw [h]
    rfl
  · exact (decode_cose_sign1_shape (fun _ => Option.none)
      (.tag 18 (.tag 99 (.list [.bytes [], .dict [], .bytes []])))).1

/-! # C6 -/

/-- C6 counterexample: with header key 4 *present* in the protected map but bound to the
falsy empty byte string, and bound to the byte `0x01` in the unprotected map, the
source's `or`-chaining skips the protected value and renders the unprotected one as
`AQ`, where the claim's absence-only fallback would render the protected value as the
empty string. -/
theorem extract_kid_falsy_fallback_counterexample :
    extract_kid [(.str "protected", .dict [(.int 4, .bytes [])]),
                 (.str "unprotected", .dict [(.int 4, .bytes [1])])] = .str "AQ" ∧
    kidClaim [(.str "protected", .dict [(.int 4, .bytes [])]),
              (.str "unprotected", .dict [(.int 4, .bytes [1])])] = .str "" ∧
    ("AQ" : String) ≠ "" :=
  ⟨rfl, rfl, by decide⟩

/-- C6 amended: `extract_kid` looks at protected before unprotected and at the integer
key before the string key, but falls through on Python-falsy present values exactly as
on absent ones, dispatching the first truthy candidate (or the last candidate when all
are falsy); the found value is rendered as the claim states: a byte string base64url
without padding, a `_b64` envelope yields its payload, a plain string passes verbatim,
anything else gives `None`. -/
theorem extract_kid_truthiness_chain (cose_headers : List (PyKey × PyVal)) :
    extract_kid cose_headers = classify_kid_value (kidLookupAmended cose_headers) := by
  unfold extract_kid kidLookupAmended
  generalize dGetD cose_headers "protected" (.dict []) = p
  generalize dGetD cose_headers "unprotected" (.dict []) = u
  have hp : find_kid p = pyOr (pvGet p (.int 4)) (pvGet p (.str "4")) := by
    rcases p <;> rfl
  have hu : find_kid u = pyOr (pvGet u (.int 4)) (pvGet u (.str "4")) := by
    rcases u <;> rfl
  rw [hp, hu]
  unfold pyOr
  split_ifs <;> simp_all

/-! # C7 -/

/-- On the dict `\x7b5: ref\x7d` holding a non-empty string, the resolver runs the
classification chain on `ref`. -/
theorem parse_shlink_reference_str (parseJson : List Nat → Option PyVal) (ref : String)
    (h : ref ≠ "") :
    parse_shlink_reference parseJson [(.int 5, .str ref)] =
      .ok (shlinkClassify parseJson (.str ref) ref) := by
  have htr : pyTruthy (.str ref) = true := by simp [pyTruthy, h]
  have hor : pyOr (pvGet (PyVal.dict [(.int 5, .str ref)]) (.int 5))
      (pvGet (PyVal.dict [(.int 5, .str ref)]) (.str "5")) = .str ref := by
    show pyOr (.str ref) _ = .str ref
    unfold pyOr
    rw [htr]
    simp
  simp only [parse_shlink_reference, hor, htr]
  simp

/-- C7: a `shlink://` reference whose base64url payload fails to decode, or whose
decoded bytes fail to parse as JSON, still yields a normal response carrying
`hasReference: true`, an error string, the original raw entry value, and no `url`
field — the resolution call itself does not fail. -/
theorem shlink_failure_graceful (parseJson : List Nat → Option PyVal) (ref : String)
    (hpre : pyStartsWith ref "shlink://" = true)
    (hfail : urlsafe_b64decode (padB64 ((ref.toList.drop 9).asString)) = Option.none ∨
      ∀ bs, urlsafe_b64decode (padB64 ((ref.toList.drop 9).asString)) = some bs →
        parseJson bs = Option.none) :
    parse_shlink_reference parseJson [(.int 5, .str ref)] =
      .ok ⟨true, some (.str ref), Option.none, Option.none, Option.none, Option.none,
           some shlinkErrMsg⟩ := by
  have hne : ref ≠ "" := by
    intro he
    subst he
    simp [pyStartsWith] at hpre
  rw [parse_shlink_reference_str parseJson ref hne]
  unfold shlinkClassify
  simp only [hpre, if_true]
  rcases hfail with hf | hf
  · rw [hf]
  · cases hb : urlsafe_b64decode (padB64 ((ref.toList.drop 9).asString)) with
    | none => rfl
    | some bs =>
      simp only [hf bs hb]

/-- Witness for C7: `shlink://x` has a payload whose padded form `x===` fails the
base64url decode, and the resolver returns the graceful error result. -/
theorem shlink_failure_graceful_witness :
    pyStartsWith "shlink://x" "shlink://" = true ∧
    urlsafe_b64decode (padB64 (("shlink://x".toList.drop 9).asString)) = Option.none ∧
    parse_shlink_reference (fun _ => Option.none) [(.int 5, .str "shlink://x")] =
      .ok ⟨true, some (.str "shlink://x"), Option.none, Option.none, Option.none,
           Option.none, some shlinkErrMsg⟩ :=
  ⟨by decide, by decide,
   shlink_failure_graceful (fun _ => Option.none) "shlink://x" (by decide)
     (Or.inl (by decide))⟩

/-! # C2 -/

/-- C2 counterexample: `YWJ` — starting with neither `shlink://` nor `http` —
base64url-decodes after padding to the bytes of `ab`, a valid UTF-8 string that does not
start with `http`; contrary to the claim, the result then carries NO `url` field at all
rather than `url = "YWJ"`. -/
theorem shlink_base64_nonhttp_no_url :
    urlsafe_b64decode (padB64 "YWJ") = some [97, 98] ∧
    utf8Decode [97, 98] = some ['a', 'b'] ∧
    parse_shlink_reference (fun _ => Option.none) [(.int 5, .str "YWJ")] =
      .ok ⟨true, some (.str "YWJ"), Option.none, Option.none, Option.none, Option.none,
           Option.none⟩ ∧
    (Option.none : Option PyVal) ≠ some (.str "YWJ") :=
  ⟨by decide, by decide, rfl, by simp⟩

/-- C2 amended: for every entry-5 string starting with neither `shlink://` nor `http`,
the resolver attempts a padded base64url decode; if the decoded bytes form a UTF-8
string starting with `http`, that string becomes `url`; if the decode or the UTF-8
conversion fails, the original string is assigned verbatim to `url`; but when the decode
succeeds and the decoded text does NOT start with `http`, no `url` field is set at
all. -/
theorem reference_fallback_classification (parseJson : List Nat → Option PyVal)
    (ref : String) (h1 : pyStartsWith ref "shlink://" = false)
    (h2 : pyStartsWith ref "http" = false) (h3 : ref ≠ "") :
    parse_shlink_reference parseJson [(.int 5, .str ref)] =
      .ok ⟨true, some (.str ref),
        (match b64UrlProbe ref with
         | some d => if pyStartsWith d "http" then some (.str d) else Option.none
         | Option.none => some (.str ref)),
        Option.none, Option.none, Option.none, Option.none⟩ := by
  rw [parse_shlink_reference_str parseJson ref h3]
  unfold shlinkClassify b64UrlProbe
  simp only [h1, h2, Bool.false_eq_true, if_false, Bool.not_false, if_true]
  cases hb : urlsafe_b64decode (padB64 ref) with
  | none => simp
  | some bs =>
    cases hu : utf8Decode bs with
    | none => simp [hu]
    | some cs =>
      by_cases hh : pyStartsWith cs.asString "http" = true
      · simp [hu, hh]
      · simp [hu, hh]

/-- Witness for the amended C2: `aHR0cDovL2E` decodes to `http://a`, which becomes the
`url`. -/
theorem reference_fallback_classification_witness :
    pyStartsWith "aHR0cDovL2E" "shlink://" = false ∧
    pyStartsWith "aHR0cDovL2E" "http" = false ∧
    b64UrlProbe "aHR0cDovL2E" = some "http://a" ∧
    parse_shlink_reference (fun _ => Option.none) [(.int 5, .str "aHR0cDovL2E")] =
      .ok ⟨true, some (.str "aHR0cDovL2E"), some (.str "http://a"), Option.none,
           Option.none, Option.none, Option.none⟩ := by
  refine ⟨by decide, by decide, by decide, ?_⟩
  have h := reference_fallback_classification (fun _ => Option.none) "aHR0cDovL2E"
    (by decide) (by decide) (by decide)
  rw [h]
  rfl

/-! # C9 -/

/-- C9: whenever the health-certificate claim yields a resolvable reference value,
`/extract/reference` returns that value's resolution — whatever the payload argument
holds, including a present and differing `payload[-260][5]` — and the payload claim is
consulted only when the health-certificate claim yields no reference. -/
theorem extract_reference_precedence (parseJson : List Nat → Option PyVal)
    (hcert payload : PyVal) :
    (∀ r, hcertRefOf hcert = some r →
      extract_reference parseJson hcert payload =
        match parse_shlink_reference parseJson [(.int 5, r)] with
        | .ok res => .resolved res
        | .error _ => .serverError) ∧
    (hcertRefOf hcert = Option.none →
      extract_reference parseJson hcert payload =
        match payloadRefOf payload with
        | some r =>
          match parse_shlink_reference parseJson [(.int 5, r)] with
          | .ok res => .resolved res
          | .error _ => .serverError
        | Option.none => .notFound) := by
  constructor
  · intro r h
    unfold extract_reference
    rw [h]
  · intro h
    unfold extract_reference
    rw [h]

/-- Witness for C9: with `hcert[5] = http://x` and a differing
`payload[-260][5] = http://y` both present and resolvable, the handler returns the
resolution of `http://x`. -/
theorem extract_reference_precedence_witness :
    hcertRefOf (.dict [(.int 5, .str "http://x")]) = some (.str "http://x") ∧
    payloadRefOf (.dict [(.int (-260), .dict [(.int 5, .str "http://y")])])
      = some (.str "http://y") ∧
    extract_reference (fun _ => Option.none) (.dict [(.int 5, .str "http://x")])
        (.dict [(.int (-260), .dict [(.int 5, .str "http://y")])])
      = .resolved ⟨true, some (.str "http://x"), some (.str "http://x"), Option.none,
          Option.none, Option.none, Option.none⟩ := by
  refine ⟨rfl, rfl, ?_⟩
  have h := (extract_reference_precedence (fun _ => Option.none)
    (.dict [(.int 5, .str "http://x")])
    (.dict [(.int (-260), .dict [(.int 5, .str "http://y")])])).1 (.str "http://x") rfl
  rw [h]
  rfl

/-! # C10 -/

/-- C10: an input whose normalized text starts with `<!DOCTYPE html` or `<html` is
rejected by `/decode/hcert` with HTTP 400 and error code `html_received_instead_of_hc1`,
before the `HC1:` prefix check and before any Base45 sanitizing or decoding runs, so
such an input never produces `base45_decode_failed`. -/
theorem decode_hcert_rejects_html (nfkc : List Char → List Char) (qr : List Char)
    (h : "<!DOCTYPE html".toList.isPrefixOf (normalize_text nfkc qr).1 = true ∨
         "<html".toList.isPrefixOf (normalize_text nfkc qr).1 = true) :
    decode_hcert nfkc qr = .failure 400 .html_received_instead_of_hc1 := by
  unfold decode_hcert
  rcases h with h | h <;> simp at h <;> simp [h]

/-- Witness for C10: a concrete HTML body is rejected with the HTML error code (NFKC is
the identity on this pure-ASCII input). -/
theorem decode_hcert_rejects_html_witness :
    ("<html".toList.isPrefixOf (normalize_text id "<html><body>hi</body>".toList).1
        = true) ∧
    decode_hcert id "<html><body>hi</body>".toList =
      .failure 400 .html_received_instead_of_hc1 :=
  ⟨by decide,
   decode_hcert_rejects_html id "<html><body>hi</body>".toList (Or.inr (by decide))⟩

/-! # Base64url round-trip lemmas -/

/-- Decoding inverts encoding on each 6-bit alphabet value. -/
theorem b64CharVal_b64Char : ∀ v, v < 64 → b64CharVal (b64Char v) = some v := by
  decide

/-- Every character the encoder emits is the image of a 6-bit value, provided the input
values are bytes. -/
theorem b64urlChars_spec : ∀ bs : List Nat, (∀ x ∈ bs, x < 256) →
    ∀ c ∈ b64urlChars bs, ∃ v, v < 64 ∧ c = b64Char v
  | [], _ => by simp [b64urlChars]
  | [a], h => by
    have ha : a < 256 := h a (by simp)
    intro c hc
    simp only [b64urlChars, List.mem_cons, List.not_mem_nil, or_false] at hc
    rcases hc with rfl | rfl
    · exact ⟨a / 4, by omega, rfl⟩
    · exact ⟨a % 4 * 16, by omega, rfl⟩
  | [a, b], h => by
    have ha : a < 256 := h a (by simp)
    have hb : b < 256 := h b (by simp)
    intro c hc
    simp only [b64urlChars, List.mem_cons, List.not_mem_nil, or_false] at hc
    rcases hc with rfl | rfl | rfl
    · exact ⟨a / 4, by omega, rfl⟩
    · exact ⟨a % 4 * 16 + b / 16, by omega, rfl⟩
    · exact ⟨b % 16 * 4, by omega, rfl⟩
  | a :: b :: c :: rest, h => by
    have ha : a < 256 := h a (by simp)
    have hb : b < 256 := h b (by simp)
    have hc2 : c < 256 := h c (by simp)
    intro x hx
    simp only [b64urlChars, List.mem_cons] at hx
    rcases hx with rfl | rfl | rfl | rfl | hx
    · exact ⟨a / 4, by omega, rfl⟩
    · exact ⟨a % 4 * 16 + b / 16, by omega, rfl⟩
    · exact ⟨b % 16 * 4 + c / 64, by omega, rfl⟩
    · exact ⟨c % 64, by omega, rfl⟩
    · exact b64urlChars_spec rest (fun y hy => h y (by simp [hy])) x hx

/-- The encoder output length is never 1 more than a multiple of 4. -/
theorem b64urlChars_length_mod : ∀ bs : List Nat, (b64urlChars bs).length % 4 ≠ 1
  | [] => by simp [b64urlChars]
  | [_] => by simp [b64urlChars]
  | [_, _] => by simp [b64urlChars]
  | _ :: _ :: _ :: rest => by
    have ih := b64urlChars_length_mod rest
    simp only [b64urlChars, List.length_cons]
    omega

/-- The grouped decoder inverts the grouped encoder on byte lists. -/
theorem b64CoreC_b64urlChars : ∀ bs : List Nat, (∀ x ∈ bs, x < 256) →
    b64CoreC (b64urlChars bs) = some bs
  | [], _ => rfl
  | [a], h => by
    have ha : a < 256 := h a (by simp)
    simp only [b64urlChars, b64CoreC]
    rw [b64CharVal_b64Char (a / 4) (by omega), b64CharVal_b64Char (a % 4 * 16) (by omega)]
    simp
    omega
  | [a, b], h => by
    have ha : a < 256 := h a (by simp)
    have hb : b < 256 := h b (by simp)
    simp only [b64urlChars, b64CoreC]
    rw [b64CharVal_b64Char (a / 4) (by omega),
        b64CharVal_b64Char (a % 4 * 16 + b / 16) (by omega),
        b64CharVal_b64Char (b % 16 * 4) (by omega)]
    simp
    omega
  | a :: b :: c :: rest, h => by
    have ha : a < 256 := h a (by simp)
    have hb : b < 256 := h b (by simp)
    have hc : c < 256 := h c (by simp)
    have ih := b64CoreC_b64urlChars rest (fun y hy => h y (by simp [hy]))
    simp only [b64urlChars, b64CoreC]
    rw [b64CharVal_b64Char (a / 4) (by omega),
        b64CharVal_b64Char (a % 4 * 16 + b / 16) (by omega),
        b64CharVal_b64Char (b % 16 * 4 + c / 64) (by omega),
        b64CharVal_b64Char (c % 64) (by omega), ih]
    simp
    omega

/-- `takeWhile` passes over a prefix it accepts wholesale. -/
theorem takeWhile_append_all {α : Type} {p : α → Bool} {xs : List α} (ys : List α)
    (h : ∀ a ∈ xs, p a = true) : (xs ++ ys).takeWhile p = xs ++ ys.takeWhile p := by
  induction xs with
  | nil => simp
  | cons x xs ih =>
    simp only [List.cons_append, List.takeWhile_cons, h x (List.mem_cons_self _ _),
      if_true]
    rw [ih (fun a ha => h a (List.mem_cons_of_mem _ ha))]

/-- `takeWhile` with the not-`=` test stops immediately on padding. -/
theorem takeWhile_replicate_pad (k : Nat) :
    (List.replicate k '=').takeWhile (fun c => c != '=') = [] := by
  cases k with
  | zero => rfl
  | succ n => simp [List.replicate_succ, List.takeWhile_cons]

/-- The discard filter keeps padding characters. -/
theorem filter_keep_replicate (k : Nat) :
    (List.replicate k '=').filter (fun c => (b64CharVal c).isSome || c == '=')
      = List.replicate k '=' := by
  apply List.filter_eq_self.mpr
  intro a ha
  rw [List.eq_of_mem_replicate ha]
  decide

/-- Padding runs satisfy the all-`=` check. -/
theorem all_pad_replicate (k : Nat) :
    (List.replicate k '=').all (fun c => c == '=') = true := by
  simp [List.all_eq_true]

/-- The modelled Python decoder inverts the no-padding encoder once any padding run
completing the length to a multiple of 4 is appended. -/
theorem b64DecodeKept_encpad (bs : List Nat) (hb : ∀ x ∈ bs, x < 256) (k : Nat)
    (hk : ((b64urlChars bs).length + k) % 4 = 0) :
    b64DecodeKept (b64urlChars bs ++ List.replicate k '=') = some bs := by
  have hvalid := b64urlChars_spec bs hb
  have hne : ∀ c ∈ b64urlChars bs, (c != '=') = true := by
    intro c hc
    obtain ⟨v, hv, rfl⟩ := hvalid c hc
    have h1 := b64CharVal_b64Char v hv
    have h2 : b64CharVal '=' = Option.none := by decide
    simp only [bne_iff_ne, ne_eq]
    intro he
    rw [he, h2] at h1
    cases h1
  unfold b64DecodeKept
  rw [takeWhile_append_all _ hne, takeWhile_replicate_pad, List.append_nil,
    List.drop_left]
  unfold b64DecodeSplit
  rw [if_pos ⟨all_pad_replicate k, by simpa using hk, b64urlChars_length_mod bs⟩]
  exact b64CoreC_b64urlChars bs hb

/-- Round-trip through the source's padding idiom: `urlsafe_b64decode` of the padded
no-padding encoding returns the original bytes. -/
theorem urlsafe_b64decode_roundtrip (bs : List Nat) (hb : ∀ x ∈ bs, x < 256) :
    urlsafe_b64decode (padB64 (b64urlNoPad bs)) = some bs := by
  have hvalid := b64urlChars_spec bs hb
  have hkeep : ∀ c ∈ b64urlChars bs,
      ((b64CharVal c).isSome || c == '=') = true := by
    intro c hc
    obtain ⟨v, hv, rfl⟩ := hvalid c hc
    rw [Bool.or_eq_true, Option.isSome_iff_exists]
    exact Or.inl ⟨v, b64CharVal_b64Char v hv⟩
  have htl : (padB64 (b64urlNoPad bs)).toList
      = b64urlChars bs ++ List.replicate (4 - (b64urlChars bs).length % 4) '=' := by
    show ((b64urlChars bs).asString
        ++ (List.replicate (4 - ((b64urlChars bs).asString).length % 4) '=').asString).toList
      = _
    simp [String.toList]
    rfl
  unfold urlsafe_b64decode
  rw [htl, List.filter_append, List.filter_eq_self.mpr hkeep, filter_keep_replicate]
  exact b64DecodeKept_encpad bs hb _ (by omega)

/-! # C8 -/

/-- C8: projecting a byte string yields the `\x7b_b64: base64url-no-padding\x7d`
envelope, unprojecting that envelope returns exactly the original bytes, and the
projection is applied recursively through mappings and sequences. -/
theorem json_safe_roundtrip (b : List Nat) (hb : ∀ x ∈ b, x < 256) :
    bytes_to_json_safe (.bytes b) = .dict [(.str "_b64", .str (b64urlNoPad b))] ∧
    unprojectB64 (bytes_to_json_safe (.bytes b)) = some b ∧
    (∀ kvs, bytes_to_json_safe (.dict kvs)
        = .dict (kvs.map (fun p => (p.1, bytes_to_json_safe p.2)))) ∧
    (∀ xs, bytes_to_json_safe (.list xs) = .list (xs.map bytes_to_json_safe)) := by
  have h1 : bytes_to_json_safe (.bytes b)
      = .dict [(.str "_b64", .str (b64urlNoPad b))] := by
    simp [bytes_to_json_safe]
  refine ⟨h1, ?_, ?_, ?_⟩
  · rw [h1]
    show urlsafe_b64decode (padB64 (b64urlNoPad b)) = some b
    exact urlsafe_b64decode_roundtrip b hb
  · intro kvs
    rw [show bytes_to_json_safe (.dict kvs)
        = .dict (kvs.attach.map (fun p => (p.1.1, bytes_to_json_safe p.1.2))) from by
      simp [bytes_to_json_safe]]
    rw [List.attach_map_val kvs (fun p => (p.1, bytes_to_json_safe p.2))]
  · intro xs
    rw [show bytes_to_json_safe (.list xs)
        = .list (xs.attach.map (fun p => bytes_to_json_safe p.1)) from by
      simp [bytes_to_json_safe]]
    rw [List.attach_map_val xs bytes_to_json_safe]

/-- Witness for C8: the bytes `00 01 FF` project to the envelope holding `AAH_` and
unproject back to themselves. -/
theorem json_safe_roundtrip_witness :
    (∀ x ∈ ([0, 1, 255] : List Nat), x < 256) ∧
    bytes_to_json_safe (.bytes [0, 1, 255]) = .dict [(.str "_b64", .str "AAH_")] ∧
    unprojectB64 (bytes_to_json_safe (.bytes [0, 1, 255])) = some [0, 1, 255] := by
  refine ⟨by decide, ?_, (json_safe_roundtrip [0, 1, 255] (by decide)).2.1⟩
  rw [(json_safe_roundtrip [0, 1, 255] (by decide)).1]
  rfl

end WhoItb
